import Mathlib

/-!
Verification of the stategen hot path of the prysm beacon-chain repository.

The embedding models `beacon-chain/stategen/hot.go` over a pure store:
blocks, states and hot-state summaries are association lists keyed by
32-byte roots (modelled as `Nat`), the epoch-boundary cache is an
association list from boundary slots to roots, and every fallible Go
function becomes a function into `Except Err`.  Go runtime panics
(index out of range, nil dereference) are modelled as the distinguished
error values `panicIndexOutOfRange` and `panicNilDeref`, so that a
theorem can separate a returned error value from a crash.
-/

deriving instance DecidableEq for Except

namespace Stategen

/-- Slots per epoch, the chain-config constant `params.BeaconConfig().SlotsPerEpoch`
(mainnet value). -/
def SLOTS_PER_EPOCH : Nat := 32

/-- A beacon block with its observable attributes.  `root` carries the
block's own hash-tree root: hashing is an external collaborator, so the
model records the hash as data alongside the block. -/
structure Block where
  slot : Nat
  parentRoot : Nat
  stateRoot : Nat
  root : Nat
  deriving DecidableEq

/-- Modelled from the spec: the consensus `BeaconState` is opaque with an
observable `slot`; the external state-transition functions are modelled
freely by recording the roots of the blocks applied so far. -/
structure BState where
  slot : Nat
  applied : List Nat
  deriving DecidableEq

/-- The persisted hot-state summary record (`pb.HotStateSummary`). -/
structure HotStateSummary where
  slot : Nat
  latestRoot : Nat
  boundaryRoot : Nat
  deriving DecidableEq

/-- The database facade: blocks in insertion order, states and summaries
keyed by root, and the genesis block. -/
structure DB where
  blocks : List Block
  states : List (Nat × BState)
  summaries : List (Nat × HotStateSummary)
  genesis : Block
  deriving DecidableEq

/-- The stategen service state: the database, the in-memory
`epochBoundarySlotToRoot` cache and the finalized split slot. -/
structure Core where
  db : DB
  cache : List (Nat × Nat)
  splitSlot : Nat
  deriving DecidableEq

/-- Error outcomes of the modelled operations.  The two `panic*`
constructors model Go runtime panics rather than returned error values. -/
inductive Err where
  | notFound
  | chainMismatch
  | nilSummary
  | nilBoundary
  | boundaryNotCached
  | badBoundaryLen
  | replayPastTarget
  | panicIndexOutOfRange
  | panicNilDeref
  deriving DecidableEq

/-- Association-list lookup; the newest binding (front of the list) wins,
which models key overwrite on save. -/
def lookupPairs {α : Type} : List (Nat × α) → Nat → Option α
  | [], _ => none
  | (k, v) :: rest, key => if k == key then some v else lookupPairs rest key

/-- Fetch a state by root (`beaconDB.State`). -/
def lookupState (db : DB) (r : Nat) : Option BState :=
  lookupPairs db.states r

/-- Fetch a hot state summary by block root (`beaconDB.HotStateSummary`). -/
def lookupSummary (db : DB) (r : Nat) : Option HotStateSummary :=
  lookupPairs db.summaries r

/-- `beaconDB.HasHotStateSummary`. -/
def hasHotStateSummary (db : DB) (r : Nat) : Bool :=
  (lookupSummary db r).isSome

/-- Fetch a block by root (`beaconDB.Block`). -/
def lookupBlock (db : DB) (r : Nat) : Option Block :=
  db.blocks.find? (fun b => b.root == r)

/-- Persist a state under a root (`beaconDB.SaveState`); overwrites. -/
def saveState (db : DB) (r : Nat) (st : BState) : DB :=
  { db with states := (r, st) :: db.states }

/-- Persist a hot state summary keyed by its latest root
(`beaconDB.SaveHotStateSummary`). -/
def saveSummary (db : DB) (sum : HotStateSummary) : DB :=
  { db with summaries := (sum.latestRoot, sum) :: db.summaries }

/-- The ascending list of slots in the inclusive window. -/
def slotWindow (s e : Nat) : List Nat :=
  (List.range (e + 1 - s)).map (fun i => s + i)

/-- Blocks whose slot lies in the inclusive window, in ascending slot
order; siblings at the same slot keep insertion order.  This is the
ordering contract of `beaconDB.Blocks`/`beaconDB.BlockRoots` with a slot
filter. -/
def blocksInRange (db : DB) (s e : Nat) : List Block :=
  (slotWindow s e).flatMap (fun sl => db.blocks.filter (fun b => b.slot == sl))

/-- `beaconDB.BlockRoots` with a start/end slot filter. -/
def blockRoots (db : DB) (s e : Nat) : List Nat :=
  (blocksInRange db s e).map Block.root

/-- Cache lookup (`s.epochBoundaryRoot`). -/
def lookupCache (cache : List (Nat × Nat)) (slot : Nat) : Option Nat :=
  lookupPairs cache slot

/-- Cache insertion (`s.setEpochBoundaryRoot`). -/
def setEpochBoundaryRoot (c : Core) (slot r : Nat) : Core :=
  { c with cache := (slot, r) :: c.cache }

/-- `helpers.CurrentEpoch`: the state's slot divided by slots-per-epoch. -/
def currentEpoch (st : BState) : Nat :=
  st.slot / SLOTS_PER_EPOCH

/-- `helpers.IsEpochStart`. -/
def isEpochStart (slot : Nat) : Bool :=
  slot % SLOTS_PER_EPOCH == 0

/-- `helpers.StartSlot` of an epoch. -/
def startSlotOfEpoch (epoch : Nat) : Nat :=
  epoch * SLOTS_PER_EPOCH

/-- The epoch-boundary slot at or below the given slot. -/
def boundarySlot (slot : Nat) : Nat :=
  slot / SLOTS_PER_EPOCH * SLOTS_PER_EPOCH

/-- Wrap-around `uint64` subtraction, for inputs below `2 ^ 64`. -/
def sub64 (a b : Nat) : Nat :=
  (a + 2 ^ 64 - b) % 2 ^ 64

/-- Modelled from the spec: `process_slots` of the external
state-transition interface advances empty slots to the target and fails
with `ReplayPastTarget` when the target precedes the current slot. -/
def processSlotsTo (st : BState) (target : Nat) : Except Err BState :=
  if target < st.slot then .error .replayPastTarget
  else .ok { st with slot := target }

/-- Modelled from the spec: `state_transition` applied to one block; the
free model records the block root and moves to the block's slot. -/
def applyBlock (st : BState) (b : Block) : BState :=
  { slot := b.slot, applied := st.applied ++ [b.root] }

/-- Modelled from the spec: one step of the replayer, skipping blocks at
or below the current slot. -/
def replayOne (st : BState) (b : Block) : Except Err BState :=
  if st.slot < b.slot then
    match processSlotsTo st b.slot with
    | .error e => .error e
    | .ok st1 => .ok (applyBlock st1 b)
  else .ok st

/-- Modelled from the spec: apply a list of blocks oldest-first. -/
def replayAll (st : BState) : List Block → Except Err BState
  | [] => .ok st
  | b :: rest =>
    match replayOne st b with
    | .error e => .error e
    | .ok st1 => replayAll st1 rest

/-- Modelled from the spec: `ReplayBlocks` is not under src; §4.5 of the
spec defines it as reversing the leaf-first block list, applying each
block, then advancing empty slots to the target slot. -/
def replayBlocks (st : BState) (blks : List Block) (target : Nat) : Except Err BState :=
  match replayAll st blks.reverse with
  | .error e => .error e
  | .ok st1 => processSlotsTo st1 target

/-- The parent-chain walk of the reconstructor: scan the remaining
candidates from the highest slot downward, keeping exactly those whose
root matches the parent root of the block kept last. -/
def walkChain (cur : Block) : List Block → List Block
  | [] => []
  | b :: rest =>
    if b.root == cur.parentRoot then b :: walkChain b rest
    else walkChain cur rest

/-- Modelled from the spec: `loadBlocks` is not under src (only its tests
in src/unnamed/part_001 are).  Per §4.4/§8: query the block range, fail
`NotFound` on an empty range, require the highest-slot candidate to be
the requested end root (else the `chainMismatch` failure the tests call
"end block roots don't match"), then walk parents downward. -/
def loadBlocksRev (endRoot : Nat) : List Block → Except Err (List Block)
  | [] => .error .notFound
  | lastB :: revRest =>
    if lastB.root == endRoot then .ok (lastB :: walkChain lastB revRest)
    else .error .chainMismatch

/-- The reconstructor proper: range query, then the descending walk of
`loadBlocksRev`. -/
def loadBlocks (db : DB) (startSlot endSlot endRoot : Nat) : Except Err (List Block) :=
  loadBlocksRev endRoot (blocksInRange db startSlot endSlot).reverse

/-- `HotStateExists` from hot.go: delegates to the summary check. -/
def HotStateExists (c : Core) (blockRoot : Nat) : Bool :=
  hasHotStateSummary c.db blockRoot

/-- The tail of `handleLastValidState` after the start state has been
resolved: load the chain up to the last root, replay, persist. -/
def lastValidTail (c : Core) (slot lastRoot : Nat) (startState : BState) :
    Except Err (Nat × Core) :=
  match loadBlocks c.db (startState.slot + 1) slot lastRoot with
  | .error e => .error e
  | .ok blks =>
    match replayBlocks startState blks slot with
    | .error e => .error e
    | .ok st2 => .ok (lastRoot, { c with db := saveState c.db lastRoot st2 })

/-- `handleLastValidState` from hot.go: scan `[split.slot, slot]` for the
last block root (indexing panics when the range is empty), read the
boundary cache at `slot - SLOTS_PER_EPOCH` discarding the presence flag
(a miss yields the zero root), fetch the start state (a nil state is
dereferenced), then replay and persist. -/
def handleLastValidState (c : Core) (slot : Nat) : Except Err (Nat × Core) :=
  match (blockRoots c.db c.splitSlot slot).reverse with
  | [] => .error .panicIndexOutOfRange
  | lastRoot :: _ =>
    match lookupState c.db ((lookupCache c.cache (sub64 slot SLOTS_PER_EPOCH)).getD 0) with
    | none => .error .panicNilDeref
    | some startState => lastValidTail c slot lastRoot startState

/-- `getLastValidBlock` from hot.go: scan `[split.slot, targetSlot]` for
the last block root (indexing panics when the range is empty) and fetch
that block's slot (a nil block is dereferenced). -/
def getLastValidBlock (c : Core) (targetSlot : Nat) : Except Err (Nat × Nat) :=
  match (blockRoots c.db c.splitSlot targetSlot).reverse with
  | [] => .error .panicIndexOutOfRange
  | lastRoot :: _ =>
    match lookupBlock c.db lastRoot with
    | none => .error .panicNilDeref
    | some b => .ok (lastRoot, b.slot)

/-- `loadEpochBoundaryRoot` from hot.go: cache first; at the boundary the
root is the block root itself (returned without caching); genesis uses
the genesis block's hash; otherwise a DB range query at the boundary
slot, with skip-slot backfill on an empty result. -/
def loadEpochBoundaryRoot (c : Core) (blockRoot : Nat) (st : BState) :
    Except Err (Nat × Core) :=
  match lookupCache c.cache (currentEpoch st * SLOTS_PER_EPOCH) with
  | some r => .ok (r, c)
  | none =>
    if st.slot == currentEpoch st * SLOTS_PER_EPOCH then .ok (blockRoot, c)
    else if currentEpoch st * SLOTS_PER_EPOCH == 0 then
      .ok (c.db.genesis.root,
           setEpochBoundaryRoot c (currentEpoch st * SLOTS_PER_EPOCH) c.db.genesis.root)
    else
      match blockRoots c.db (currentEpoch st * SLOTS_PER_EPOCH)
              (currentEpoch st * SLOTS_PER_EPOCH) with
      | [] =>
        match handleLastValidState c (currentEpoch st * SLOTS_PER_EPOCH) with
        | .error e => .error e
        | .ok (r, c2) => .ok (r, setEpochBoundaryRoot c2 (currentEpoch st * SLOTS_PER_EPOCH) r)
      | [r] => .ok (r, setEpochBoundaryRoot c (currentEpoch st * SLOTS_PER_EPOCH) r)
      | _ :: _ :: _ => .error .badBoundaryLen

/-- `saveHotState` from hot.go: on an epoch boundary save the full state,
then always resolve the boundary root and save a summary. -/
def mkHotSummary (slot latestRoot boundaryRoot : Nat) : HotStateSummary :=
  { slot := slot, latestRoot := latestRoot, boundaryRoot := boundaryRoot }

/-- The summary-writing tail of `saveHotState`, after the optional
full-state save. -/
def saveHotSummaryStep (c1 : Core) (blockRoot : Nat) (st : BState) : Except Err Core :=
  match loadEpochBoundaryRoot c1 blockRoot st with
  | .error e => .error e
  | .ok (epochRoot, c2) =>
    .ok { c2 with db := saveSummary c2.db (mkHotSummary st.slot blockRoot epochRoot) }

def saveHotState (c : Core) (blockRoot : Nat) (st : BState) : Except Err Core :=
  saveHotSummaryStep
    (if isEpochStart st.slot then { c with db := saveState c.db blockRoot st } else c)
    blockRoot st

/-- `loadHotStateByRoot` from hot.go: summary, boundary state, then either
the boundary state itself (epoch start) or a replay of the loaded chain. -/
def loadHotStateByRoot (c : Core) (blockRoot : Nat) : Except Err BState :=
  match lookupSummary c.db blockRoot with
  | none => .error .nilSummary
  | some summary =>
    match lookupState c.db summary.boundaryRoot with
    | none => .error .nilBoundary
    | some boundaryState =>
      if isEpochStart summary.slot then .ok boundaryState
      else
        match loadBlocks c.db (boundaryState.slot + 1) summary.slot summary.latestRoot with
        | .error e => .error e
        | .ok blks => replayBlocks boundaryState blks summary.slot

/-- `loadHotIntermediateStateWithSlot` from hot.go: the boundary cache
entry for the slot's epoch start must be present (a miss is an error,
not a DB fallthrough), then replay from the boundary state over the last
valid block's window to the requested slot. -/
def loadHotIntermediateStateWithSlot (c : Core) (slot : Nat) : Except Err BState :=
  match lookupCache c.cache (startSlotOfEpoch (slot / SLOTS_PER_EPOCH)) with
  | none => .error .boundaryNotCached
  | some ebRoot =>
    match lookupState c.db ebRoot with
    | none => .error .panicNilDeref
    | some ebState =>
      match getLastValidBlock c slot with
      | .error e => .error e
      | .ok (lastRoot, lastSlot) =>
        match loadBlocks c.db (ebState.slot + 1) lastSlot lastRoot with
        | .error e => .error e
        | .ok blks => replayBlocks ebState blks slot

/-! Concrete fixtures mirroring the test forest of src/unnamed/part_001. -/

/-- Tree 1 of the tests: a chain with two branches and a sibling at the
top; root values stand for the external hashes. -/
def tb0 : Block := { slot := 0, parentRoot := 99, stateRoot := 0, root := 100 }

def tb1 : Block := { slot := 1, parentRoot := 100, stateRoot := 0, root := 101 }

def tb2 : Block := { slot := 2, parentRoot := 101, stateRoot := 0, root := 102 }

def tb3 : Block := { slot := 3, parentRoot := 101, stateRoot := 0, root := 103 }

def tb4 : Block := { slot := 4, parentRoot := 102, stateRoot := 0, root := 104 }

def tb5 : Block := { slot := 5, parentRoot := 103, stateRoot := 0, root := 105 }

def tb6 : Block := { slot := 6, parentRoot := 104, stateRoot := 0, root := 106 }

def tb7 : Block := { slot := 7, parentRoot := 106, stateRoot := 0, root := 107 }

def tb8 : Block := { slot := 8, parentRoot := 106, stateRoot := 0, root := 108 }

def genBlock : Block := { slot := 0, parentRoot := 0, stateRoot := 0, root := 1 }

def tree1db : DB :=
  { blocks := [tb0, tb1, tb2, tb3, tb4, tb5, tb6, tb7, tb8],
    states := [], summaries := [], genesis := genBlock }

/-- Tree 2 of the tests: four siblings at slot 2 sharing parent `ub1`,
with `ub3` the child of the fourth sibling. -/
def ub0 : Block := { slot := 0, parentRoot := 9, stateRoot := 0, root := 10 }

def ub1 : Block := { slot := 1, parentRoot := 10, stateRoot := 0, root := 11 }

def ub21 : Block := { slot := 2, parentRoot := 11, stateRoot := 65, root := 21 }

def ub22 : Block := { slot := 2, parentRoot := 11, stateRoot := 66, root := 22 }

def ub23 : Block := { slot := 2, parentRoot := 11, stateRoot := 67, root := 23 }

def ub24 : Block := { slot := 2, parentRoot := 11, stateRoot := 68, root := 24 }

def ub3 : Block := { slot := 3, parentRoot := 24, stateRoot := 0, root := 13 }

def tree2db : DB :=
  { blocks := [ub0, ub1, ub21, ub22, ub23, ub24, ub3],
    states := [], summaries := [], genesis := genBlock }

/-- A store with a skip slot at the requested start: a block at slot 3
whose parent is outside the window, and its child at slot 5. -/
def gb3 : Block := { slot := 3, parentRoot := 9, stateRoot := 0, root := 30 }

def gb5 : Block := { slot := 5, parentRoot := 30, stateRoot := 0, root := 50 }

def gapDB : DB :=
  { blocks := [gb3, gb5], states := [], summaries := [], genesis := genBlock }

example : loadBlocks tree1db 0 8 108 = .ok [tb8, tb6, tb4, tb2, tb1, tb0] := by decide

example : loadBlocks tree1db 0 5 105 = .ok [tb5, tb3, tb1, tb0] := by decide

example : loadBlocks tree1db 0 7 107 = .ok [tb7, tb6, tb4, tb2, tb1, tb0] := by decide

example : loadBlocks tree1db 0 5 108 = .error .chainMismatch := by decide

example : loadBlocks tree2db 0 3 13 = .ok [ub3, ub24, ub1, ub0] := by decide

example : loadBlocks gapDB 2 5 50 = .ok [gb5, gb3] := by decide

/-! Fixtures for the hot-path scenarios. -/

/-- A genesis-slot state. -/
def st0 : BState := { slot := 0, applied := [] }

/-- An empty store. -/
def emptyDB : DB :=
  { blocks := [], states := [], summaries := [], genesis := genBlock }

def c0 : Core := { db := emptyDB, cache := [], splitSlot := 0 }

/-- The core after `saveHotState c0 5 st0`: full state and summary under
root 5, boundary root 5. -/
def c0res : Core :=
  { db := { blocks := [], states := [(5, st0)],
            summaries := [(5, { slot := 0, latestRoot := 5, boundaryRoot := 5 })],
            genesis := genBlock },
    cache := [], splitSlot := 0 }

example : saveHotState c0 5 st0 = .ok c0res := by decide

example : loadHotStateByRoot c0res 5 = .ok st0 := by decide

/-- A non-boundary-slot state. -/
def st7 : BState := { slot := 7, applied := [] }

/-- The core after `saveHotState c0 77 st7`: the save at a non-boundary
slot into the empty store writes only a summary (boundary root resolved
to the genesis block's root, 1) and caches the genesis boundary; no
state is stored under the boundary root. -/
def c7res : Core :=
  { db := { blocks := [], states := [],
            summaries := [(77, { slot := 7, latestRoot := 77, boundaryRoot := 1 })],
            genesis := genBlock },
    cache := [(0, 1)], splitSlot := 0 }

example : saveHotState c0 77 st7 = .ok c7res := by decide

/-- Blocks for the non-boundary round trip that does succeed: a chain
from the genesis boundary up to a block at slot 7. -/
def rb1 : Block := { slot := 1, parentRoot := 1, stateRoot := 0, root := 71 }

def rb7 : Block := { slot := 7, parentRoot := 71, stateRoot := 0, root := 77 }

/-- A store prepared for a successful non-boundary round trip: the
genesis-boundary state is stored under the genesis root and the block
chain up to slot 7 is present. -/
def cR : Core :=
  { db := { blocks := [rb1, rb7], states := [(1, st0)], summaries := [], genesis := genBlock },
    cache := [], splitSlot := 0 }

/-- The core after `saveHotState cR 77 st7`. -/
def cRres : Core :=
  { db := { blocks := [rb1, rb7], states := [(1, st0)],
            summaries := [(77, { slot := 7, latestRoot := 77, boundaryRoot := 1 })],
            genesis := genBlock },
    cache := [(0, 1)], splitSlot := 0 }

example : saveHotState cR 77 st7 = .ok cRres := by decide

example : loadHotStateByRoot cRres 77 = .ok { slot := 7, applied := [71, 77] } := by decide

/-- Blocks for the by-slot scenario: an epoch-boundary block at slot 32
and its child at slot 33. -/
def hb32 : Block := { slot := 32, parentRoot := 90, stateRoot := 0, root := 100 }

def hb33 : Block := { slot := 33, parentRoot := 100, stateRoot := 0, root := 101 }

def st32 : BState := { slot := 32, applied := [] }

def hotDB : DB :=
  { blocks := [hb32, hb33], states := [(100, st32)], summaries := [], genesis := genBlock }

/-- The by-slot core with the boundary cache populated. -/
def c3Full : Core := { db := hotDB, cache := [(32, 100)], splitSlot := 0 }

/-- The same core after the boundary cache has been dropped. -/
def c3Clear : Core := { db := hotDB, cache := [], splitSlot := 0 }

example : loadHotIntermediateStateWithSlot c3Full 33 = .ok { slot := 33, applied := [101] } := by
  decide

example : loadHotIntermediateStateWithSlot c3Clear 33 = .error .boundaryNotCached := by decide

/-- A core over tree 1 with an empty boundary cache, for the boundary-slot
resolver scenario. -/
def c4 : Core := { db := tree1db, cache := [], splitSlot := 0 }

example : loadEpochBoundaryRoot c4 7 st32 = .ok (7, c4) := by decide

/-- A single block inside the first epoch, for the skip-slot backfill
scenario. -/
def cb1 : Block := { slot := 1, parentRoot := 3, stateRoot := 0, root := 11 }

/-- A store holding a state under the zero root, exposing the unchecked
cache miss of `handleLastValidState`. -/
def c5 : Core :=
  { db := { blocks := [cb1], states := [(0, st0)], summaries := [], genesis := genBlock },
    cache := [], splitSlot := 0 }

/-- The core produced by `handleLastValidState c5 32`. -/
def c5res : Core :=
  { db := { blocks := [cb1], states := [(11, { slot := 32, applied := [11] }), (0, st0)],
            summaries := [], genesis := genBlock },
    cache := [], splitSlot := 0 }

example : handleLastValidState c5 32 = .ok (11, c5res) := by decide

/-- An empty core, for the empty-range panic scenario. -/
def cEmpty : Core := { db := emptyDB, cache := [], splitSlot := 0 }

/-- A core holding a summary whose boundary state is absent. -/
def c10 : Core :=
  { db := { blocks := [], states := [],
            summaries := [(5, { slot := 7, latestRoot := 5, boundaryRoot := 42 })],
            genesis := genBlock },
    cache := [], splitSlot := 0 }

example : HotStateExists c10 5 = true := by decide

example : loadHotStateByRoot c10 5 = .error .nilBoundary := by decide

/-! Helper lemmas. -/

theorem lookupPairs_head {α : Type} (k : Nat) (v : α) (rest : List (Nat × α)) :
    lookupPairs ((k, v) :: rest) k = some v := by
  simp [lookupPairs]

/-- At an epoch-start slot the boundary slot is the slot itself. -/
theorem boundary_eq_of_epochStart (st : BState) (hmod : st.slot % SLOTS_PER_EPOCH = 0) :
    currentEpoch st * SLOTS_PER_EPOCH = st.slot :=
  Nat.div_mul_cancel (Nat.dvd_of_mod_eq_zero hmod)

/-- On a cache miss at an epoch-start slot, the resolver returns the input
block root and leaves the core untouched (in particular, nothing is
inserted into the cache). -/
theorem loadEpochBoundaryRoot_boundary_miss (c : Core) (root : Nat) (st : BState)
    (hmod : st.slot % SLOTS_PER_EPOCH = 0)
    (hmiss : lookupCache c.cache (currentEpoch st * SLOTS_PER_EPOCH) = none) :
    loadEpochBoundaryRoot c root st = .ok (root, c) := by
  have hself : (st.slot == currentEpoch st * SLOTS_PER_EPOCH) = true := by
    rw [boundary_eq_of_epochStart st hmod]
    simp
  unfold loadEpochBoundaryRoot
  rw [hmiss]
  simp [hself]

/-! Claim theorems. -/

/-- Claim C9 (confirmed): when the range query over
`[split.slot, slot]` returns no block roots, both backward scans index
out of bounds (a Go runtime panic) rather than returning an error value. -/
theorem backwardScan_panics_on_empty (c : Core) (slot : Nat)
    (h : blockRoots c.db c.splitSlot slot = []) :
    handleLastValidState c slot = .error .panicIndexOutOfRange ∧
    getLastValidBlock c slot = .error .panicIndexOutOfRange := by
  unfold handleLastValidState getLastValidBlock
  rw [h]
  exact ⟨rfl, rfl⟩

/-- Witness for C9 at a concrete empty store. -/
theorem backwardScan_panics_on_empty_witness :
    handleLastValidState cEmpty 40 = .error .panicIndexOutOfRange ∧
    getLastValidBlock cEmpty 40 = .error .panicIndexOutOfRange :=
  backwardScan_panics_on_empty cEmpty 40 (by decide)

/-- Claim C10 (confirmed): `HotStateExists` is exactly the store's
summary check; a summary whose boundary state is absent still reports
`true`, even though the state cannot actually be loaded. -/
theorem hotStateExists_is_summary_check :
    (∀ c root, HotStateExists c root = hasHotStateSummary c.db root) ∧
    HotStateExists c10 5 = true ∧
    lookupState c10.db 42 = none ∧
    loadHotStateByRoot c10 5 = .error .nilBoundary :=
  ⟨fun _ _ => rfl, by decide, by decide, by decide⟩

/-- Counterexample for C3: dropping the boundary cache entry changes the
result of `loadHotIntermediateStateWithSlot` from success to the
"epoch boundary root is not cached" error, over an identical store. -/
theorem loadHotBySlot_cache_drop_cex :
    loadHotIntermediateStateWithSlot c3Full 33 = .ok { slot := 33, applied := [101] } ∧
    loadHotIntermediateStateWithSlot c3Clear 33 = .error .boundaryNotCached ∧
    c3Clear.db = c3Full.db ∧ c3Clear.cache = [] := by
  refine ⟨by decide, by decide, by decide, by decide⟩

/-- Claim C3 (amended): `loadHotStateByRoot` never consults the boundary
cache, so its result is unchanged under any cache contents; but
`loadHotIntermediateStateWithSlot` fails with the not-cached error
whenever the entry for the slot's epoch start is absent, instead of
falling back to the database. -/
theorem cache_drop_behavior :
    (∀ db sp cache1 cache2 root,
        loadHotStateByRoot ⟨db, cache1, sp⟩ root = loadHotStateByRoot ⟨db, cache2, sp⟩ root) ∧
    (∀ c slot, lookupCache c.cache (startSlotOfEpoch (slot / SLOTS_PER_EPOCH)) = none →
        loadHotIntermediateStateWithSlot c slot = .error .boundaryNotCached) := by
  constructor
  · intro db sp cache1 cache2 root
    rfl
  · intro c slot h
    unfold loadHotIntermediateStateWithSlot
    rw [h]

/-- Witness for C3's amended theorem at concrete inputs. -/
theorem cache_drop_behavior_witness :
    loadHotStateByRoot ⟨hotDB, [(32, 100)], 0⟩ 100 = loadHotStateByRoot ⟨hotDB, [], 0⟩ 100 ∧
    loadHotIntermediateStateWithSlot cEmpty 7 = .error .boundaryNotCached :=
  ⟨cache_drop_behavior.1 hotDB 0 [(32, 100)] [] 100,
   cache_drop_behavior.2 cEmpty 7 (by decide)⟩

/-- Counterexample for C4: at an epoch-start slot with an empty cache the
resolver returns the block root but inserts nothing into the cache. -/
theorem boundaryRoot_no_cache_insert_cex :
    loadEpochBoundaryRoot c4 7 st32 = .ok (7, c4) ∧
    lookupCache c4.cache 32 = none := by
  refine ⟨by decide, by decide⟩

/-- Claim C4 (amended): when `state.slot` equals the boundary slot `B` and
the cache has no entry for `B`, `loadEpochBoundaryRoot` returns the input
block root with the core unchanged — no cache entry is inserted — and
`saveHotState` at an epoch-start slot likewise leaves the cache as it
found it. -/
theorem loadEpochBoundaryRoot_at_boundary (c : Core) (root : Nat) (st : BState)
    (hb : isEpochStart st.slot = true)
    (hmiss : lookupCache c.cache (currentEpoch st * SLOTS_PER_EPOCH) = none) :
    loadEpochBoundaryRoot c root st = .ok (root, c) ∧
    ∀ c', saveHotState c root st = .ok c' → c'.cache = c.cache := by
  have hmod : st.slot % SLOTS_PER_EPOCH = 0 := by
    simpa [isEpochStart] using hb
  refine ⟨loadEpochBoundaryRoot_boundary_miss c root st hmod hmiss, ?_⟩
  intro c' hsave
  unfold saveHotState at hsave
  rw [hb] at hsave
  simp only [if_true] at hsave
  unfold saveHotSummaryStep at hsave
  have h1 : loadEpochBoundaryRoot
      { db := saveState c.db root st, cache := c.cache, splitSlot := c.splitSlot } root st
      = .ok (root, { db := saveState c.db root st, cache := c.cache, splitSlot := c.splitSlot }) :=
    loadEpochBoundaryRoot_boundary_miss _ root st hmod hmiss
  rw [h1] at hsave
  simp only [Except.ok.injEq] at hsave
  rw [← hsave]

/-- Witness for C4's amended theorem at a concrete input. -/
theorem loadEpochBoundaryRoot_at_boundary_witness :
    loadEpochBoundaryRoot c4 7 st32 = .ok (7, c4) ∧
    ∀ c', saveHotState c4 7 st32 = .ok c' → c'.cache = c4.cache :=
  loadEpochBoundaryRoot_at_boundary c4 7 st32 (by decide) (by decide)

/-- Counterexample for C5: the cache entry for `slot - SLOTS_PER_EPOCH`
is missing, yet `handleLastValidState` succeeds by silently reading the
state stored under the zero root instead of surfacing the miss. -/
theorem lastValidState_zero_root_cex :
    handleLastValidState c5 32 = .ok (11, c5res) ∧
    lookupCache c5.cache (sub64 32 SLOTS_PER_EPOCH) = none ∧
    lookupState c5.db 0 = some st0 := by
  refine ⟨by decide, by decide, by decide⟩

/-- Claim C5 (amended): the boundary-cache lookup in
`handleLastValidState` is not checked for presence; on a miss the
operation proceeds with the zero root as the start-state key (panicking
on a nil state, or replaying from whatever state the store holds at the
zero root). -/
theorem handleLastValidState_miss_zero_root (c : Core) (slot lastRoot : Nat) (rest : List Nat)
    (hmiss : lookupCache c.cache (sub64 slot SLOTS_PER_EPOCH) = none)
    (hrev : (blockRoots c.db c.splitSlot slot).reverse = lastRoot :: rest) :
    handleLastValidState c slot =
      match lookupState c.db 0 with
      | none => .error .panicNilDeref
      | some startState => lastValidTail c slot lastRoot startState := by
  unfold handleLastValidState
  rw [hrev, hmiss]
  rfl

/-- Witness for C5's amended theorem at a concrete input. -/
theorem handleLastValidState_miss_zero_root_witness :
    handleLastValidState c5 32 =
      match lookupState c5.db 0 with
      | none => .error .panicNilDeref
      | some startState => lastValidTail c5 32 11 startState :=
  handleLastValidState_miss_zero_root c5 32 11 [] (by decide) (by decide)

/-! The reconstructor: chain lemmas. -/

/-- A successful `loadBlocks` starts with the block whose root is the
requested end root. -/
theorem loadBlocks_ok_head (db : DB) (s e er : Nat) (out : List Block)
    (hok : loadBlocks db s e er = .ok out) :
    ∃ b rest, out = b :: rest ∧ b.root = er := by
  unfold loadBlocks at hok
  cases hrev : (blocksInRange db s e).reverse with
  | nil =>
    rw [hrev] at hok
    simp [loadBlocksRev] at hok
  | cons lastB revRest =>
    rw [hrev] at hok
    simp only [loadBlocksRev] at hok
    split at hok
    next hcond =>
      injection hok with hout
      subst hout
      exact ⟨lastB, walkChain lastB revRest, rfl, eq_of_beq hcond⟩
    next =>
      cases hok

/-- Every block kept by the walk comes from the candidate list. -/
theorem walkChain_subset (cur : Block) (l : List Block) :
    ∀ x ∈ walkChain cur l, x ∈ l := by
  induction l generalizing cur with
  | nil =>
    intro x hx
    cases hx
  | cons b rest ih =>
    intro x hx
    unfold walkChain at hx
    split at hx
    · rcases List.mem_cons.mp hx with h | h
      · subst h
        exact List.mem_cons_self x rest
      · exact List.mem_cons_of_mem b (ih b x h)
    · exact List.mem_cons_of_mem b (ih cur x hx)

/-- The walk output is parent-linked: each kept block's root is the
parent root of the block kept just before it. -/
theorem walkChain_chain (cur : Block) (l : List Block) :
    List.Chain' (fun a b => b.root = a.parentRoot) (cur :: walkChain cur l) := by
  induction l generalizing cur with
  | nil =>
    simp [walkChain]
  | cons b rest ih =>
    unfold walkChain
    split
    next hcond =>
      rw [List.chain'_cons]
      exact ⟨eq_of_beq hcond, ih b⟩
    next =>
      exact ih cur

/-- Membership in a range query gives store membership and the slot
bounds. -/
theorem mem_blocksInRange (db : DB) (s e : Nat) (b : Block)
    (h : b ∈ blocksInRange db s e) : b ∈ db.blocks ∧ s ≤ b.slot ∧ b.slot ≤ e := by
  unfold blocksInRange at h
  rw [List.mem_flatMap] at h
  obtain ⟨sl, hsl, hb⟩ := h
  rw [List.mem_filter] at hb
  obtain ⟨hmem, hslot⟩ := hb
  have hslot2 : b.slot = sl := eq_of_beq hslot
  unfold slotWindow at hsl
  rw [List.mem_map] at hsl
  obtain ⟨i, hi, hieq⟩ := hsl
  rw [List.mem_range] at hi
  refine ⟨hmem, ?_, ?_⟩ <;> omega

/-- In a store where every parent is at a strictly lower slot,
parent-linked chains have strictly decreasing slots. -/
theorem chain_slots_decreasing (db : DB)
    (hwf : ∀ b ∈ db.blocks, ∀ p ∈ db.blocks, p.root = b.parentRoot → p.slot < b.slot) :
    ∀ l : List Block, List.Chain' (fun a b => b.root = a.parentRoot) l →
      (∀ x ∈ l, x ∈ db.blocks) → List.Chain' (fun a b => b.slot < a.slot) l := by
  intro l
  induction l with
  | nil =>
    intro _ _
    exact List.chain'_nil
  | cons a l2 ih =>
    intro hch hmem
    cases l2 with
    | nil =>
      simp
    | cons b l3 =>
      rw [List.chain'_cons] at hch ⊢
      refine ⟨?_, ih hch.2 (fun x hx => hmem x (List.mem_cons_of_mem a hx))⟩
      exact hwf a (hmem a (List.mem_cons_self a _)) b
        (hmem b (List.mem_cons_of_mem a (List.mem_cons_self b l3))) hch.1

/-- A strictly slot-decreasing list below a head block, with all slots at
least `s`, is no longer than the head's slot distance to `s`. -/
theorem chain_desc_length_aux (s : Nat) :
    ∀ (l : List Block) (a : Block), List.Chain' (fun x y => y.slot < x.slot) (a :: l) →
      (∀ b ∈ l, s ≤ b.slot) → l.length ≤ a.slot - s := by
  intro l
  induction l with
  | nil =>
    intro a _ _
    simp
  | cons b l2 ih =>
    intro a hch hmem
    rw [List.chain'_cons] at hch
    have h1 := ih b hch.2 (fun x hx => hmem x (List.mem_cons_of_mem b hx))
    have h2 : s ≤ b.slot := hmem b (List.mem_cons_self b l2)
    have h3 : b.slot < a.slot := hch.1
    simp only [List.length_cons]
    omega

/-- Claim C6 (confirmed): with tree 1, requesting end root `B8` over the
window `[0, 5]` fails with the chain-mismatch error ("end block roots
don't match"), and every successful reconstruction starts with a block
whose root is exactly the requested end root. -/
theorem loadBlocks_end_root_check :
    loadBlocks tree1db 0 5 108 = .error .chainMismatch ∧
    ∀ db s e er out, loadBlocks db s e er = .ok out →
      ∃ b rest, out = b :: rest ∧ b.root = er :=
  ⟨by decide, fun db s e er out hok => loadBlocks_ok_head db s e er out hok⟩

/-- Witness for C6 at a concrete successful reconstruction. -/
theorem loadBlocks_end_root_check_witness :
    ∃ b rest, [tb8, tb6, tb4, tb2, tb1, tb0] = b :: rest ∧ b.root = 108 :=
  loadBlocks_end_root_check.2 tree1db 0 8 108 [tb8, tb6, tb4, tb2, tb1, tb0] (by decide)

/-- Counterexample for C2: over a well-formed store with a skip slot at
the start of the window, the reconstructed chain's last element sits at
slot 3, strictly above the requested start slot 2, refuting the clause
that the last element's slot is at most the start slot. -/
theorem loadBlocks_last_slot_gap_cex :
    loadBlocks gapDB 2 5 50 = .ok [gb5, gb3] ∧
    ([gb5, gb3] : List Block).getLast? = some gb3 ∧
    ¬ gb3.slot ≤ 2 ∧
    (∀ b ∈ gapDB.blocks, ∀ p ∈ gapDB.blocks, p.root = b.parentRoot → p.slot < b.slot) := by
  refine ⟨by decide, by decide, by decide, by decide⟩

/-- Claim C2 (amended): every successful reconstruction starts at the end
root, is parent-linked, stays inside the inclusive slot window, has
strictly decreasing slots (in a store whose parents sit at lower slots),
and has length at most `end_slot - start_slot + 1`; only the sibling on
the ancestral path appears, as on tree 2.  The last element's slot need
not reach down to the start slot. -/
theorem loadBlocks_chain_invariant (db : DB) (s e er : Nat) (out : List Block)
    (hwf : ∀ b ∈ db.blocks, ∀ p ∈ db.blocks, p.root = b.parentRoot → p.slot < b.slot)
    (hok : loadBlocks db s e er = .ok out) :
    (∃ b rest, out = b :: rest ∧ b.root = er) ∧
    List.Chain' (fun a b => b.root = a.parentRoot) out ∧
    (∀ b ∈ out, s ≤ b.slot ∧ b.slot ≤ e) ∧
    List.Chain' (fun a b => b.slot < a.slot) out ∧
    out.length ≤ e - s + 1 ∧
    loadBlocks tree2db 0 3 13 = .ok [ub3, ub24, ub1, ub0] := by
  have hhead := loadBlocks_ok_head db s e er out hok
  unfold loadBlocks at hok
  cases hrev : (blocksInRange db s e).reverse with
  | nil =>
    rw [hrev] at hok
    simp [loadBlocksRev] at hok
  | cons lastB revRest =>
    rw [hrev] at hok
    simp only [loadBlocksRev] at hok
    split at hok
    next hcond =>
      injection hok with hout
      subst hout
      have hmem_bs : ∀ x ∈ lastB :: walkChain lastB revRest, x ∈ blocksInRange db s e := by
        intro x hx
        rcases List.mem_cons.mp hx with h | h
        · subst h
          have hx2 : x ∈ (blocksInRange db s e).reverse := by
            rw [hrev]
            exact List.mem_cons_self x revRest
          exact List.mem_reverse.mp hx2
        · have h2 : x ∈ revRest := walkChain_subset lastB revRest x h
          have hx2 : x ∈ (blocksInRange db s e).reverse := by
            rw [hrev]
            exact List.mem_cons_of_mem lastB h2
          exact List.mem_reverse.mp hx2
      have hbounds : ∀ x ∈ lastB :: walkChain lastB revRest,
          x ∈ db.blocks ∧ s ≤ x.slot ∧ x.slot ≤ e :=
        fun x hx => mem_blocksInRange db s e x (hmem_bs x hx)
      have hlink := walkChain_chain lastB revRest
      have hdesc := chain_slots_decreasing db hwf _ hlink (fun x hx => (hbounds x hx).1)
      have hlen : (walkChain lastB revRest).length ≤ lastB.slot - s :=
        chain_desc_length_aux s _ lastB hdesc
          (fun b hb => (hbounds b (List.mem_cons_of_mem lastB hb)).2.1)
      have hlaste : lastB.slot ≤ e := (hbounds lastB (List.mem_cons_self lastB _)).2.2
      refine ⟨hhead, hlink, fun b hb => (hbounds b hb).2, hdesc, ?_, by decide⟩
      simp only [List.length_cons]
      omega
    next =>
      cases hok

/-- Witness for C2's amended theorem at the tree-2 reconstruction. -/
theorem loadBlocks_chain_invariant_witness :
    (∃ b rest, [ub3, ub24, ub1, ub0] = b :: rest ∧ b.root = 13) ∧
    List.Chain' (fun a b => b.root = a.parentRoot) [ub3, ub24, ub1, ub0] ∧
    (∀ b ∈ [ub3, ub24, ub1, ub0], 0 ≤ b.slot ∧ b.slot ≤ 3) ∧
    List.Chain' (fun a b => b.slot < a.slot) [ub3, ub24, ub1, ub0] ∧
    ([ub3, ub24, ub1, ub0] : List Block).length ≤ 3 - 0 + 1 ∧
    loadBlocks tree2db 0 3 13 = .ok [ub3, ub24, ub1, ub0] :=
  loadBlocks_chain_invariant tree2db 0 3 13 [ub3, ub24, ub1, ub0] (by decide) (by decide)

/-! Error-shape lemmas for the replayer and reconstructor. -/

theorem loadBlocks_error_shape (db : DB) (s e er : Nat) (x : Err)
    (h : loadBlocks db s e er = .error x) : x = .notFound ∨ x = .chainMismatch := by
  unfold loadBlocks at h
  cases hl : (blocksInRange db s e).reverse with
  | nil =>
    rw [hl] at h
    simp only [loadBlocksRev] at h
    injection h with h2
    exact Or.inl h2.symm
  | cons a l2 =>
    rw [hl] at h
    simp only [loadBlocksRev] at h
    split at h
    · cases h
    · injection h with h2
      exact Or.inr h2.symm

theorem processSlotsTo_error (st : BState) (t : Nat) (x : Err)
    (h : processSlotsTo st t = .error x) : x = .replayPastTarget := by
  unfold processSlotsTo at h
  split at h
  · injection h with h2
    exact h2.symm
  · cases h

theorem replayOne_error (st : BState) (b : Block) (x : Err)
    (h : replayOne st b = .error x) : x = .replayPastTarget := by
  unfold replayOne at h
  split at h
  · cases hp : processSlotsTo st b.slot with
    | error e =>
      rw [hp] at h
      injection h with h2
      exact h2 ▸ processSlotsTo_error st b.slot e hp
    | ok st1 =>
      rw [hp] at h
      cases h
  · cases h

theorem replayAll_error (x : Err) :
    ∀ (l : List Block) (st : BState), replayAll st l = .error x → x = .replayPastTarget := by
  intro l
  induction l with
  | nil =>
    intro st h
    unfold replayAll at h
    cases h
  | cons b rest ih =>
    intro st h
    unfold replayAll at h
    cases hr : replayOne st b with
    | error e =>
      rw [hr] at h
      injection h with h2
      exact h2 ▸ replayOne_error st b e hr
    | ok st1 =>
      rw [hr] at h
      exact ih st1 h

theorem replayBlocks_error (st : BState) (blks : List Block) (t : Nat) (x : Err)
    (h : replayBlocks st blks t = .error x) : x = .replayPastTarget := by
  unfold replayBlocks at h
  cases hr : replayAll st blks.reverse with
  | error e =>
    rw [hr] at h
    injection h with h2
    exact h2 ▸ replayAll_error e blks.reverse st hr
  | ok st1 =>
    rw [hr] at h
    exact processSlotsTo_error st1 t x h

/-- A successful replay lands exactly on the target slot. -/
theorem replayBlocks_ok_slot (st : BState) (blks : List Block) (t : Nat) (res : BState)
    (h : replayBlocks st blks t = .ok res) : res.slot = t := by
  unfold replayBlocks at h
  cases hr : replayAll st blks.reverse with
  | error e =>
    rw [hr] at h
    cases h
  | ok st1 =>
    rw [hr] at h
    have h2 : processSlotsTo st1 t = .ok res := h
    unfold processSlotsTo at h2
    split at h2
    · cases h2
    · injection h2 with h3
      rw [← h3]

/-- Full case analysis of a failing `loadHotStateByRoot`. -/
theorem loadHot_error_cases (c : Core) (root : Nat) (x : Err)
    (h : loadHotStateByRoot c root = .error x) :
    (x = .nilSummary ∧ lookupSummary c.db root = none) ∨
    (x = .nilBoundary ∧ ∃ sum, lookupSummary c.db root = some sum ∧
        lookupState c.db sum.boundaryRoot = none) ∨
    (x = .notFound ∨ x = .chainMismatch ∨ x = .replayPastTarget) := by
  unfold loadHotStateByRoot at h
  split at h
  next hs =>
    injection h with h2
    exact Or.inl ⟨h2.symm, hs⟩
  next sum hs =>
    split at h
    next hbs =>
      injection h with h2
      exact Or.inr (Or.inl ⟨h2.symm, sum, hs, hbs⟩)
    next bst hbs =>
      split at h
      · cases h
      · split at h
        next e hl =>
          injection h with h2
          rcases loadBlocks_error_shape _ _ _ _ _ hl with h3 | h3
          · exact Or.inr (Or.inr (Or.inl (h2 ▸ h3)))
          · exact Or.inr (Or.inr (Or.inr (Or.inl (h2 ▸ h3))))
        next blks hl =>
          exact Or.inr (Or.inr (Or.inr (Or.inr (replayBlocks_error _ _ _ _ h))))

/-- Claim C8 (confirmed): `loadHotStateByRoot` fails with the nil-summary
error exactly when the store has no summary for the root, and with the
nil-boundary error exactly when a summary exists but no state is stored
under its boundary root. -/
theorem loadHot_lookup_errors (c : Core) (root : Nat) :
    (loadHotStateByRoot c root = .error .nilSummary ↔ lookupSummary c.db root = none) ∧
    (loadHotStateByRoot c root = .error .nilBoundary ↔
      ∃ sum, lookupSummary c.db root = some sum ∧
        lookupState c.db sum.boundaryRoot = none) := by
  constructor
  · constructor
    · intro h
      rcases loadHot_error_cases c root .nilSummary h with h1 | h1 | h1
      · exact h1.2
      · exact absurd h1.1 (by decide)
      · rcases h1 with h1 | h1 | h1 <;> exact absurd h1 (by decide)
    · intro hs
      unfold loadHotStateByRoot
      rw [hs]
  · constructor
    · intro h
      rcases loadHot_error_cases c root .nilBoundary h with h1 | h1 | h1
      · exact absurd h1.1 (by decide)
      · exact h1.2
      · rcases h1 with h1 | h1 | h1 <;> exact absurd h1 (by decide)
    · intro hex
      obtain ⟨sum, hs, hbs⟩ := hex
      unfold loadHotStateByRoot
      rw [hs]
      simp [hbs]

/-! The hot save path. -/

/-- Decomposition of a successful `saveHotSummaryStep`. -/
theorem saveHotSummaryStep_ok (c1 c' : Core) (root : Nat) (st : BState)
    (h : saveHotSummaryStep c1 root st = .ok c') :
    ∃ er c2, loadEpochBoundaryRoot c1 root st = .ok (er, c2) ∧
      c' = { c2 with db := saveSummary c2.db (mkHotSummary st.slot root er) } := by
  unfold saveHotSummaryStep at h
  cases hl : loadEpochBoundaryRoot c1 root st with
  | error e =>
    rw [hl] at h
    cases h
  | ok p =>
    rw [hl] at h
    obtain ⟨er, c2⟩ := p
    injection h with h2
    exact ⟨er, c2, rfl, h2.symm⟩

/-- At an epoch-start slot the resolver leaves the core unchanged (cache
hit, or the boundary-equals-slot early return). -/
theorem loadEpochBoundaryRoot_epochStart_core (c1 c2 : Core) (root er : Nat) (st : BState)
    (hb : isEpochStart st.slot = true)
    (h : loadEpochBoundaryRoot c1 root st = .ok (er, c2)) : c2 = c1 := by
  have hmod : st.slot % SLOTS_PER_EPOCH = 0 := by
    simpa [isEpochStart] using hb
  cases hc : lookupCache c1.cache (currentEpoch st * SLOTS_PER_EPOCH) with
  | none =>
    rw [loadEpochBoundaryRoot_boundary_miss c1 root st hmod hc] at h
    simp only [Except.ok.injEq, Prod.mk.injEq] at h
    exact h.2.symm
  | some r =>
    unfold loadEpochBoundaryRoot at h
    rw [hc] at h
    simp only [Except.ok.injEq, Prod.mk.injEq] at h
    exact h.2.symm

/-- Claim C7 (confirmed): every successful `saveHotState` persists a
summary carrying the state's slot, the block root as latest root, and the
resolved boundary root — and on an epoch-start slot the full state is
additionally persisted under the block root. -/
theorem saveHot_always_writes_summary (c c' : Core) (root : Nat) (st : BState)
    (hsave : saveHotState c root st = .ok c') :
    ∃ er, lookupSummary c'.db root = some (mkHotSummary st.slot root er) ∧
      (isEpochStart st.slot = true → lookupState c'.db root = some st) := by
  unfold saveHotState at hsave
  obtain ⟨er, c2, hload, hc'⟩ := saveHotSummaryStep_ok _ c' root st hsave
  refine ⟨er, ?_, ?_⟩
  · rw [hc']
    simp [lookupSummary, saveSummary, mkHotSummary, lookupPairs]
  · intro hb
    have hcc := loadEpochBoundaryRoot_epochStart_core _ c2 root er st hb hload
    simp only [hb, if_true] at hcc
    rw [hc', hcc]
    simp [lookupState, saveState, saveSummary, lookupPairs]

/-- Witness for C7 at the concrete epoch-start save. -/
theorem saveHot_always_writes_summary_witness :
    ∃ er, lookupSummary c0res.db 5 = some (mkHotSummary st0.slot 5 er) ∧
      (isEpochStart st0.slot = true → lookupState c0res.db 5 = some st0) :=
  saveHot_always_writes_summary c0 c0res 5 st0 (by decide)

/-- Computation of `loadHotStateByRoot` once the summary and boundary
state are known to be present. -/
theorem loadHotStateByRoot_eq (c : Core) (root : Nat) (sum : HotStateSummary) (bs : BState)
    (hsum : lookupSummary c.db root = some sum)
    (hbs : lookupState c.db sum.boundaryRoot = some bs) :
    loadHotStateByRoot c root =
      if isEpochStart sum.slot then .ok bs
      else
        match loadBlocks c.db (bs.slot + 1) sum.slot sum.latestRoot with
        | .error e => .error e
        | .ok blks => replayBlocks bs blks sum.slot := by
  unfold loadHotStateByRoot
  rw [hsum]
  simp [hbs]

/-- Counterexample for C1: a single `saveHotState` at a non-boundary slot
into the empty store succeeds, yet the subsequent `loadHotStateByRoot`
of the same root fails with the nil-boundary-state error ("boundary
state can't be nil"): the summary points at the genesis boundary root,
under which no state is stored.  So a saved pair does not in general
load back. -/
theorem saveHot_then_loadHot_nilBoundary_cex :
    saveHotState c0 77 st7 = .ok c7res ∧
    loadHotStateByRoot c7res 77 = .error .nilBoundary := by
  refine ⟨by decide, by decide⟩

/-- Claim C1 (amended): after a successful `saveHotState` issued on a
cache miss for the state's boundary slot, `loadHotStateByRoot` of the
same root succeeds with a state at exactly the saved slot, and that
state is the boundary-anchor state itself on an epoch boundary, and
otherwise the result of replaying the loaded chain from the boundary
anchor up to the summary's slot — provided the store holds a state under
the resolved boundary root and chain load and replay succeed on the
non-boundary path.  The save path does not itself guarantee these, and
without them the load fails (see the counterexample). -/
theorem saveHot_loadHot_roundtrip (c c' : Core) (root : Nat) (st : BState)
    (hsave : saveHotState c root st = .ok c')
    (hmiss : lookupCache c.cache (currentEpoch st * SLOTS_PER_EPOCH) = none)
    (hrest : ∀ sum, lookupSummary c'.db root = some sum → isEpochStart st.slot = false →
      ∃ bs blks res, lookupState c'.db sum.boundaryRoot = some bs ∧
        loadBlocks c'.db (bs.slot + 1) sum.slot sum.latestRoot = .ok blks ∧
        replayBlocks bs blks sum.slot = .ok res) :
    ∃ res, loadHotStateByRoot c' root = .ok res ∧ res.slot = st.slot ∧
      ∀ sum bs, lookupSummary c'.db root = some sum →
        lookupState c'.db sum.boundaryRoot = some bs →
        sum.slot = st.slot ∧ sum.latestRoot = root ∧
        (isEpochStart st.slot = true → res = bs ∧ bs = st) ∧
        (isEpochStart st.slot = false →
          ∃ blks, loadBlocks c'.db (bs.slot + 1) sum.slot sum.latestRoot = .ok blks ∧
            replayBlocks bs blks sum.slot = .ok res) := by
  unfold saveHotState at hsave
  obtain ⟨er, c2, hload, hc'⟩ := saveHotSummaryStep_ok _ c' root st hsave
  have hsum : lookupSummary c'.db root = some (mkHotSummary st.slot root er) := by
    rw [hc']
    simp [lookupSummary, saveSummary, mkHotSummary, lookupPairs]
  cases hb : isEpochStart st.slot with
  | true =>
    have hmod : st.slot % SLOTS_PER_EPOCH = 0 := by
      simpa [isEpochStart] using hb
    have hload2 : loadEpochBoundaryRoot
        { db := saveState c.db root st, cache := c.cache, splitSlot := c.splitSlot } root st
        = .ok (er, c2) := by
      simpa [hb] using hload
    rw [loadEpochBoundaryRoot_boundary_miss
        { db := saveState c.db root st, cache := c.cache, splitSlot := c.splitSlot }
        root st hmod hmiss] at hload2
    simp only [Except.ok.injEq, Prod.mk.injEq] at hload2
    obtain ⟨her, hc2⟩ := hload2
    have hst : lookupState c'.db root = some st := by
      rw [hc', ← hc2]
      simp [lookupState, saveSummary, saveState, lookupPairs]
    have hbr : (mkHotSummary st.slot root er).boundaryRoot = root := by
      simp [mkHotSummary, ← her]
    have hbs0 : lookupState c'.db (mkHotSummary st.slot root er).boundaryRoot = some st := by
      rw [hbr]
      exact hst
    have hres : loadHotStateByRoot c' root = .ok st := by
      rw [loadHotStateByRoot_eq c' root (mkHotSummary st.slot root er) st hsum hbs0]
      simp [mkHotSummary, hb]
    refine ⟨st, hres, rfl, ?_⟩
    intro sum bs hsum2 hbs2
    rw [hsum] at hsum2
    injection hsum2 with hsum3
    subst hsum3
    rw [hbs0] at hbs2
    injection hbs2 with hbs3
    refine ⟨rfl, rfl, ?_, ?_⟩
    · intro _
      exact ⟨hbs3, hbs3.symm⟩
    · intro hf
      exact absurd hf (by decide)
  | false =>
    obtain ⟨bs, blks, res, hbs, hlb, hrep⟩ := hrest _ hsum hb
    have hres : loadHotStateByRoot c' root = .ok res := by
      rw [loadHotStateByRoot_eq c' root (mkHotSummary st.slot root er) bs hsum hbs]
      simp only [mkHotSummary] at hlb hrep ⊢
      rw [hb]
      simp only [Bool.false_eq_true, if_false]
      rw [hlb]
      exact hrep
    refine ⟨res, hres, ?_, ?_⟩
    · have := replayBlocks_ok_slot bs blks (mkHotSummary st.slot root er).slot res hrep
      exact this
    · intro sum2 bs2 hsum2 hbs2
      rw [hsum] at hsum2
      injection hsum2 with hsum3
      subst hsum3
      rw [hbs] at hbs2
      injection hbs2 with hbs3
      subst hbs3
      refine ⟨rfl, rfl, ?_, ?_⟩
      · intro ht
        exact absurd ht (by decide)
      · intro _
        exact ⟨blks, hlb, hrep⟩

/-- Witness for C1's amended theorem at a concrete non-boundary save:
the boundary state is stored and the chain up to slot 7 is present, so
every hypothesis is exercised, including the reconstruction and replay
of the loaded chain. -/
theorem saveHot_loadHot_roundtrip_witness :
    ∃ res, loadHotStateByRoot cRres 77 = .ok res ∧ res.slot = st7.slot ∧
      ∀ sum bs, lookupSummary cRres.db 77 = some sum →
        lookupState cRres.db sum.boundaryRoot = some bs →
        sum.slot = st7.slot ∧ sum.latestRoot = 77 ∧
        (isEpochStart st7.slot = true → res = bs ∧ bs = st7) ∧
        (isEpochStart st7.slot = false →
          ∃ blks, loadBlocks cRres.db (bs.slot + 1) sum.slot sum.latestRoot = .ok blks ∧
            replayBlocks bs blks sum.slot = .ok res) :=
  saveHot_loadHot_roundtrip cR cRres 77 st7 (by decide) (by decide)
    (by
      intro sum hsum hne
      have hs : lookupSummary cRres.db 77 =
          some { slot := 7, latestRoot := 77, boundaryRoot := 1 } := by decide
      rw [hs] at hsum
      injection hsum with h
      subst h
      exact ⟨st0, [rb7, rb1], { slot := 7, applied := [71, 77] },
        by decide, by decide, by decide⟩)

end Stategen
